import Mathlib

/-!
# Agent runtime: container manager, controller poller, ping builtin

A shallow embedding of the parts of the agent that the routing, validation,
dispatch and reconnection properties are about:

* `containers/manager.go`: `forwardNext`, `ContainerCreateArguments.Valid`,
  `getNextSequence`, `create`, `getCoreXQueue`, `dispatch`;
* `agent/poller.go`: one pass of the loop of `longPoll` and runs of it;
* `agent/lib/builtin/ping.go`: `ping`.

Calls that leave the process (redis, HTTP, the file system, netlink, the JSON
codec, the UUID generator, the clock) are inputs of the embedded functions;
calls whose effect a property is about (`Respond`, `RPUSH`, `RunCmd`,
`RunCmdQueued`, the startup `POST`, `time.Sleep`) are recorded in the value
the embedded function returns.
-/

namespace Core0

/-! ## `containers/manager.go` -/

namespace containers

/-- Name of the shared response queue, `coreXResponseQueue`. -/
def coreXResponseQueue : String := "corex:results"

/-- The `core.JobResult` envelope as decoded from a payload of the response
queue. The manager reads `Tags` only; the other fields travel unchanged. -/
structure JobResult where
  ID : String
  Tags : String
  State : String
  Level : Int
  Data : String
deriving DecidableEq, Repr

/-- A controller handle `base.SinkClient`, the value stored in `m.sinks`. -/
structure SinkClient where
  Key : String
  URL : String
deriving DecidableEq, Repr

/-- The `core.Command` record: the fields that `create` and `dispatch` read or
write, and the raw JSON of `Arguments`. -/
structure Command where
  ID : String
  Name : String
  Arguments : String
  Queue : String
  Tags : String
  Route : String
deriving DecidableEq, Repr

/-- The type `containerManager`: the sequence counter (a `uint64`) and the
sink table, a Go map given as its list of entries and read with
`List.lookup`. -/
structure containerManager where
  sequence : Nat
  sinks : List (String × SinkClient)
deriving Repr

/-- What a Go function that returns `error` did: returned `nil`, returned an
error, or stopped in a run-time panic. -/
inductive Returned (ε : Type) where
  | nil : Returned ε
  | err (e : ε) : Returned ε
  | panicked : Returned ε
deriving DecidableEq, Repr

/-- The collaborators of `forwardNext`: the reply of
`redis.ByteSlices(db.Do("BLPOP", coreXResponseQueue, 0))`, the decoder
`json.Unmarshal` into a `core.JobResult`, and the value `Respond` returns
(`none` is `nil`). -/
structure ForwardEnv where
  blpop : Except String (List String)
  unmarshal : String → Except String JobResult
  respond : SinkClient → JobResult → Option String

/-- The outcome of one call of `forwardNext`: the calls of `Respond` it made,
in order, each with the sink and the result passed, and the value returned. -/
structure ForwardOut where
  responds : List (SinkClient × JobResult)
  ret : Returned String
deriving DecidableEq, Repr

/-- The method `containerManager.forwardNext`. -/
def forwardNext (m : containerManager) (env : ForwardEnv) : ForwardOut :=
  match env.blpop with
  | .error e => { responds := [], ret := .err e }
  | .ok payload =>
    match payload.get? 1 with
    | none => { responds := [], ret := .panicked }
    | some raw =>
      match env.unmarshal raw with
      | .error _ => { responds := [], ret := .nil }
      | .ok result =>
        match m.sinks.lookup result.Tags with
        | some sink =>
          { responds := [(sink, result)],
            ret := match env.respond sink result with
              | none => .nil
              | some e => .err e }
        | none => { responds := [], ret := .nil }

/-- The method `containerManager.getNextSequence` on the `uint64` counter:
the value returned and the manager afterwards. -/
def getNextSequence (m : containerManager) : Nat × containerManager :=
  let next := (m.sequence + 1) % 2 ^ 64
  (next, { m with sequence := next })

/-- The type `Network`; a bridge setting is the pair `[2]string`, its `Name()`
the first component. -/
structure Network where
  ZeroTier : String
  Bridge : List (String × String)
deriving DecidableEq, Repr

/-- The type `ContainerCreateArguments`; the Go maps `Mount` and `Port` are given
as their lists of entries, in the order the `range` loop visits them. -/
structure ContainerCreateArguments where
  Root : String
  Mount : List (String × String)
  Network : Network
  Port : List (Int × Int)
deriving DecidableEq, Repr

/-- The fields `Scheme` and `Path` of a parsed `url.URL`. -/
structure URL where
  Scheme : String
  Path : String
deriving DecidableEq, Repr

/-- The errors `Valid` returns, one constructor per `return` statement. -/
inductive ValidError where
  | rootRequired
  | invalidHostMount (err : String)
  | hostNotAbsolute (host : String)
  | guestNotAbsolute (guest : String)
  | hostNotExist (p : String)
  | invalidHostPort (host : Int)
  | invalidGuestPort (guest : Int)
  | link (err : String)
  | notBridge (bridges : List (String × String))
deriving DecidableEq, Repr

/-- The collaborators of `Valid`: `url.Parse`, whether `os.Stat(p)` fails with
an error for which `os.IsNotExist` holds, and `netlink.LinkByName` followed by
`link.Type()`. -/
structure ValidEnv where
  urlParse : String → Except String URL
  statNotExist : String → Bool
  linkType : String → Except String String

/-- Go `path.IsAbs`: the path begins with a slash. -/
def isAbs (p : String) : Bool :=
  match p.toList with
  | c :: _ => c == '/'
  | [] => false

/-- The loop of `Valid` over `c.Mount`. -/
def validMount (env : ValidEnv) : List (String × String) → Option ValidError
  | [] => none
  | (host, guest) :: rest =>
    match env.urlParse host with
    | .error e => some (.invalidHostMount e)
    | .ok u =>
      if u.Scheme ≠ "" then validMount env rest
      else if !isAbs u.Path then some (.hostNotAbsolute host)
      else if !isAbs guest then some (.guestNotAbsolute guest)
      else if env.statNotExist u.Path then some (.hostNotExist u.Path)
      else validMount env rest

/-- The loop of `Valid` over `c.Port`. -/
def validPort : List (Int × Int) → Option ValidError
  | [] => none
  | (host, guest) :: rest =>
    if host < 0 ∨ host > 65535 then some (.invalidHostPort host)
    else if guest < 0 ∨ guest > 65535 then some (.invalidGuestPort guest)
    else validPort rest

/-- The loop of `Valid` over `c.Network.Bridge`; `all` is the whole slice,
which the error of line 114 carries. -/
def validBridge (env : ValidEnv) (all : List (String × String)) :
    List (String × String) → Option ValidError
  | [] => none
  | bridge :: rest =>
    match env.linkType bridge.1 with
    | .error e => some (.link e)
    | .ok t => if t ≠ "bridge" then some (.notBridge all) else validBridge env all rest

/-- The method `ContainerCreateArguments.Valid`; `none` is the `nil` error. -/
def Valid (env : ValidEnv) (c : ContainerCreateArguments) : Option ValidError :=
  if c.Root = "" then some .rootRequired
  else match validMount env c.Mount with
  | some e => some e
  | none =>
    match validPort c.Port with
    | some e => some e
    | none => validBridge env c.Network.Bridge c.Network.Bridge

/-- The errors `create` returns. -/
inductive CreateError where
  | unmarshal (err : String)
  | invalid (err : ValidError)
  | start (err : String)
deriving DecidableEq, Repr

/-- The collaborators of `create`: the decoder of the arguments, those of
`Valid`, and `newContainer(id, route, args).Start()`. -/
structure CreateEnv where
  unmarshal : String → Except String ContainerCreateArguments
  valid : ValidEnv
  start : Nat → String → ContainerCreateArguments → Option String

/-- The method `containerManager.create`: the pair returned (the id, or `none`
for the `nil` interface, and the error) and the manager afterwards. -/
def create (m : containerManager) (env : CreateEnv) (cmd : Command) :
    (Option Nat × Option CreateError) × containerManager :=
  match env.unmarshal cmd.Arguments with
  | .error e => ((none, some (.unmarshal e)), m)
  | .ok args =>
    match Valid env.valid args with
    | some e => ((none, some (.invalid e)), m)
    | none =>
      let (id, m1) := getNextSequence m
      match env.start id cmd.Route args with
      | some e => ((none, some (.start e)), m1)
      | none => ((some id, none), m1)

/-- The method `containerManager.getCoreXQueue`. -/
def getCoreXQueue (id : Nat) : String := "core:" ++ toString id

/-- The runner name `fmt.Sprintf("core-%d", id)`. -/
def coreName (id : Nat) : String := "core-" ++ toString id

/-- The type `ContainerDispatchArguments`. -/
structure ContainerDispatchArguments where
  Container : Nat
  Command : Command
deriving DecidableEq, Repr

/-- The errors `dispatch` returns. -/
inductive DispatchError where
  | unmarshal (err : String)
  | invalidContainerId
  | containerDoesNotExist
  | marshal (err : String)
  | redis (err : String)
deriving DecidableEq, Repr

/-- The collaborators of `dispatch`: the decoder of the arguments, the names
under which `pm.GetManager().Runners()` has a runner, the id `uuid.New()`
mints, `json.Marshal` of a command, and the error of the `RPUSH` call. -/
structure DispatchEnv where
  unmarshal : String → Except String ContainerDispatchArguments
  runners : List String
  uuidNew : String
  marshal : Command → Except String String
  rpush : String → String → Option String

/-- The outcome of one call of `dispatch`: the value and error returned and the
`RPUSH` calls made, each with the queue and the data pushed. -/
structure DispatchOut where
  id : Option String
  err : Option DispatchError
  pushes : List (String × String)
deriving DecidableEq, Repr

/-- The method `containerManager.dispatch`. -/
def dispatch (env : DispatchEnv) (cmd : Command) : DispatchOut :=
  match env.unmarshal cmd.Arguments with
  | .error e => { id := none, err := some (.unmarshal e), pushes := [] }
  | .ok args =>
    if args.Container ≤ 0 then
      { id := none, err := some .invalidContainerId, pushes := [] }
    else if ¬ coreName args.Container ∈ env.runners then
      { id := none, err := some .containerDoesNotExist, pushes := [] }
    else
      let id := env.uuidNew
      let inner := { args.Command with ID := id, Tags := cmd.Route }
      match env.marshal inner with
      | .error e => { id := none, err := some (.marshal e), pushes := [] }
      | .ok data =>
        { id := some id,
          err := (env.rpush (getCoreXQueue args.Container) data).map DispatchError.redis,
          pushes := [(getCoreXQueue args.Container, data)] }

end containers

/-! ## `agent/poller.go` and `agent/lib/builtin/ping.go` -/

namespace agent

/-- Modelled from the spec: a value stored under a key of a command's `args`
(the package `core` that declares the argument map is not part of the
sources): an integer, a string or an integer array. -/
inductive ArgValue where
  | int (n : Int)
  | str (s : String)
  | ints (l : List Int)
deriving DecidableEq, Repr

/-- The controller settings `settings.Controller` that `SetController`
attaches to a command. -/
structure Controller where
  URL : String
deriving DecidableEq, Repr

/-- Modelled from the spec: the argument map of a command (type `MapArgs` of
the package `core`, not part of the sources). The keyed arguments
(`stats_interval`, `queue`, `domain`, `loglevels_db`, ...) are the entries of
`data`, a Go map given as its list of entries; the routing tag and the
controller handle are written by the setters of their own, `SetTag` and
`SetController`, and kept in fields of their own. -/
structure MapArgs where
  tag : String
  controller : Option Controller
  data : List (String × ArgValue)
deriving DecidableEq, Repr

/-- Assignment `m[key] = value` on a Go map given as its list of entries. -/
def setEntry (key : String) (value : ArgValue) :
    List (String × ArgValue) → List (String × ArgValue)
  | [] => [(key, value)]
  | (k, v) :: rest =>
    if k = key then (key, value) :: rest else (k, v) :: setEntry key value rest

/-- Modelled from the spec: `MapArgs.GetInt`, the integer stored under the key,
and zero when the key is unset or holds no integer. -/
def MapArgs.GetInt (args : MapArgs) (key : String) : Int :=
  match args.data.lookup key with
  | some (.int n) => n
  | _ => 0

/-- Modelled from the spec: `MapArgs.GetString`, the string stored under the
key, and the empty string when the key is unset or holds no string. -/
def MapArgs.GetString (args : MapArgs) (key : String) : String :=
  match args.data.lookup key with
  | some (.str s) => s
  | _ => ""

/-- Modelled from the spec: `MapArgs.Set`, assignment to one key. -/
def MapArgs.Set (args : MapArgs) (key : String) (value : ArgValue) : MapArgs :=
  { args with data := setEntry key value args.data }

/-- Modelled from the spec: `MapArgs.SetTag`, which writes the routing tag. -/
def MapArgs.SetTag (args : MapArgs) (tag : String) : MapArgs :=
  { args with tag := tag }

/-- Modelled from the spec: `MapArgs.GetTag`, which reads `args.tags`. -/
def MapArgs.GetTag (args : MapArgs) : String := args.tag

/-- Modelled from the spec: `MapArgs.SetController`, which attaches the
controller handle. -/
def MapArgs.SetController (args : MapArgs) (c : Controller) : MapArgs :=
  { args with controller := some c }

/-- Modelled from the spec: the command record (`core.Cmd` for the poller,
`pm.Cmd` for the builtins; neither declaration is part of the sources). -/
structure Cmd where
  Id : String
  Gid : Int
  Nid : Int
  Name : String
  Args : MapArgs
deriving DecidableEq, Repr

/-- The fields of `settings.Settings` that `longPoll` reads. -/
structure Settings where
  MainGid : Int
  MainNid : Int
  MainRoles : List String
  StatsInterval : Int
deriving DecidableEq, Repr

/-- The type `ControllerClient`: the base URL and the controller settings. -/
structure ControllerClient where
  URL : String
  Config : Controller
deriving DecidableEq, Repr

/-- The type `poller`; the process manager is represented by the calls made on
it, which the loop records. The two last fields are what the package provides
to the loop from outside the file: the constant `ReconnectSleepTime` (seconds)
and the decoder `core.LoadCmd`. -/
structure poller where
  key : String
  controller : ControllerClient
  config : Settings
  ReconnectSleepTime : Nat
  LoadCmd : String → Except String Cmd

/-- Lines 115 to 128 of `longPoll`: the decoration of a parsed command. -/
def decorate (poll : poller) (cmd : Cmd) : Cmd :=
  let meterInt := cmd.Args.GetInt "stats_interval"
  let args1 :=
    if meterInt = 0 then cmd.Args.Set "stats_interval" (.int poll.config.StatsInterval)
    else cmd.Args
  let args2 := args1.SetTag poll.key
  let args3 := args2.SetController poll.controller.Config
  { cmd with Args := args3, Gid := poll.config.MainGid, Nid := poll.config.MainNid }

/-- Go `strings.Contains` on the characters of the two strings. -/
def containsChars : List Char → List Char → Bool
  | [], sub => sub.isEmpty
  | c :: cs, sub => sub.isPrefixOf (c :: cs) || containsChars cs sub

/-- Go `strings.Contains(s, sub)`. -/
def stringsContains (s sub : String) : Bool := containsChars s.toList sub.toList

/-- The test of line 77: the error text tells that the connection was lost. -/
def connectionLost (err : String) : Bool :=
  stringsContains err "connection refused" || stringsContains err "EOF"

/-- Nanoseconds in `time.Second`. -/
def second : Nat := 1000000000

/-- Go `time.Now().Unix()` when the clock, in nanoseconds since the epoch,
reads `clock`. -/
def unix (clock : Nat) : Int := ((clock / second : Nat) : Int)

/-- A response of `client.Get`: the status code and what
`ioutil.ReadAll(response.Body)` returns. -/
structure Response where
  StatusCode : Int
  body : Except String String

/-- What the controller and the network do during one pass of the loop: the
error of the startup `client.Post` (`none`: delivered; looked at only when the
pass posts), the result of `client.Get`, and the nanoseconds each call takes
to return. -/
structure Pass where
  post : Option String
  postTime : Nat
  get : Except String Response
  getTime : Nat

/-- The calls of one pass that the properties are about; a `get` carries the
error of `client.Get`, `none` when the call succeeded. -/
inductive Action where
  | postStartup (delivered : Bool)
  | get (err : Option String)
  | sleep (ns : Nat)
  | RunCmd (cmd : Cmd)
  | RunCmdQueued (cmd : Cmd)
deriving DecidableEq, Repr

/-- A call together with the clock reading (nanoseconds) when it is made. -/
structure Event where
  time : Nat
  action : Action
deriving DecidableEq, Repr

/-- The variables of `longPoll` that live across passes, and the clock. -/
structure LoopState where
  sendStartup : Bool
  lastfail : Int
  clock : Nat
deriving DecidableEq, Repr

/-- Lines 57 to 71: the startup event is posted when `sendStartup` is set, and
the flag is cleared when the post succeeds. -/
def startupPhase (s : LoopState) (i : Pass) : LoopState × List Event :=
  if s.sendStartup then
    match i.post with
    | some _ => ({ s with clock := s.clock + i.postTime }, [⟨s.clock, .postStartup false⟩])
    | none =>
      ({ s with sendStartup := false, clock := s.clock + i.postTime },
        [⟨s.clock, .postStartup true⟩])
  else (s, [])

/-- Lines 73 to 136: the poll, the handling of its failure and of its response,
the decoration and the dispatch. -/
def pollPhase (poll : poller) (s : LoopState) (i : Pass) : LoopState × List Event :=
  let t := s.clock + i.getTime
  match i.get with
  | .error err =>
    let flag := if connectionLost err then true else s.sendStartup
    if unix t - s.lastfail < (poll.ReconnectSleepTime : Int) then
      let woke := t + poll.ReconnectSleepTime * second
      ({ sendStartup := flag, lastfail := unix woke, clock := woke },
        [⟨s.clock, .get (some err)⟩, ⟨t, .sleep (poll.ReconnectSleepTime * second)⟩])
    else
      ({ sendStartup := flag, lastfail := unix t, clock := t }, [⟨s.clock, .get (some err)⟩])
  | .ok response =>
    match response.body with
    | .error _ => ({ s with clock := t }, [⟨s.clock, .get none⟩])
    | .ok body =>
      if response.StatusCode ≠ 200 then
        ({ s with clock := t + 2 * second }, [⟨s.clock, .get none⟩, ⟨t, .sleep (2 * second)⟩])
      else if body.length = 0 then
        ({ s with clock := t }, [⟨s.clock, .get none⟩])
      else
        match poll.LoadCmd body with
        | .error _ => ({ s with clock := t }, [⟨s.clock, .get none⟩])
        | .ok cmd =>
          let cmd1 := decorate poll cmd
          if cmd1.Args.GetString "queue" = "" then
            ({ s with clock := t }, [⟨s.clock, .get none⟩, ⟨t, .RunCmd cmd1⟩])
          else
            ({ s with clock := t }, [⟨s.clock, .get none⟩, ⟨t, .RunCmdQueued cmd1⟩])

/-- One pass of the `for` loop of `longPoll`. -/
def pass (poll : poller) (s : LoopState) (i : Pass) : LoopState × List Event :=
  let r1 := startupPhase s i
  let r2 := pollPhase poll r1.1 i
  (r2.1, r1.2 ++ r2.2)

/-- The passes of the loop against a list of answers of the outside world, one
per pass, from a given state. -/
def runLoop (poll : poller) : LoopState → List Pass → LoopState × List Event
  | s, [] => (s, [])
  | s, i :: rest =>
    let r1 := pass poll s i
    let r2 := runLoop poll r1.1 rest
    (r2.1, r1.2 ++ r2.2)

/-- The state in which `longPoll` enters its loop when the clock reads
`now`. -/
def entry (now : Nat) : LoopState :=
  { sendStartup := true, lastfail := unix now, clock := now }

/-- The method `poller.longPoll`, started when the clock reads `now` and
observed over the passes that `inputs` answers. -/
def longPoll (poll : poller) (now : Nat) (inputs : List Pass) : LoopState × List Event :=
  runLoop poll (entry now) inputs

/-- The commands handed to the process manager, in order; `true` marks a call
of `RunCmdQueued`, `false` a call of `RunCmd`. -/
def handed : List Event → List (Bool × Cmd)
  | [] => []
  | e :: rest =>
    match e.action with
    | .RunCmd cmd => (false, cmd) :: handed rest
    | .RunCmdQueued cmd => (true, cmd) :: handed rest
    | _ => handed rest

/-- The clock readings at which the `GET` attempts are made, in order. -/
def getTimes : List Event → List Nat
  | [] => []
  | e :: rest =>
    match e.action with
    | .get _ => e.time :: getTimes rest
    | _ => getTimes rest

/-- The durations of the calls of `time.Sleep`, in order. -/
def sleeps : List Event → List Nat
  | [] => []
  | e :: rest =>
    match e.action with
    | .sleep ns => ns :: sleeps rest
    | _ => sleeps rest

/-- The startup discipline of a sequence of calls, read from left to right with
two marks: `owed`, a startup event is owed to the controller (on entry, and
from a failed `GET` whose error text tells that the connection was lost until
a startup `POST` is delivered), and `tried`, a startup `POST` has been made
since the last `GET`. The sequence keeps the discipline when every startup
`POST` is made while one is owed and at most once before a `GET`, and every
`GET` made while one is owed directly follows a startup `POST`. -/
def startupDiscipline : Bool → Bool → List Action → Bool
  | _, _, [] => true
  | owed, tried, .postStartup delivered :: rest =>
    owed && !tried && startupDiscipline (!delivered) true rest
  | owed, tried, .get none :: rest =>
    (!owed || tried) && startupDiscipline owed false rest
  | owed, tried, .get (some err) :: rest =>
    (!owed || tried) && startupDiscipline (owed || connectionLost err) false rest
  | owed, tried, _ :: rest => startupDiscipline owed tried rest

/-- The startup events delivered, by the clock readings of their `POST`. -/
def delivered : List Event → List Nat
  | [] => []
  | e :: rest =>
    match e.action with
    | .postStartup true => e.time :: delivered rest
    | _ => delivered rest

/-- Modelled from the spec: the level `pm.L_RESULT_JSON` of a result that
carries JSON (the constant is declared outside the sources). -/
def L_RESULT_JSON : Int := 20

/-- The result envelope `pm.JobResult` as `ping` fills it. -/
structure JobResult where
  Id : String
  Gid : Int
  Nid : Int
  Args : MapArgs
  StartTime : Int
  Time : Int
  State : String
  Level : Int
  Data : String
deriving DecidableEq, Repr

/-- The builtin `ping`: the results it passes to `cfg.ResultHandler`, in order,
when `time.Now().Unix()` reads `now`. -/
def ping (cmd : Cmd) (now : Int) : List JobResult :=
  [{ Id := cmd.Id, Gid := cmd.Gid, Nid := cmd.Nid, Args := cmd.Args,
     StartTime := now, Time := 0, State := "SUCCESS", Level := L_RESULT_JSON,
     Data := "\"pong\"" }]

end agent

/-! ## Concrete inputs -/

namespace containers

/-- The scheme split `getscheme` of Go `net/url`, at position `i` of the text
`raw` with `cs` still to read: the scheme and the rest of the text. -/
def getScheme (raw : List Char) : List Char → Nat → Except String (List Char × List Char)
  | [], _ => .ok ([], raw)
  | c :: cs, i =>
    if c.isAlpha then getScheme raw cs (i + 1)
    else if c.isDigit ∨ c = '+' ∨ c = '-' ∨ c = '.' then
      if i = 0 then .ok ([], raw) else getScheme raw cs (i + 1)
    else if c = ':' then
      if i = 0 then .error "missing protocol scheme" else .ok (raw.take i, cs)
    else .ok ([], raw)

/-- A reduced reading of Go `url.Parse`, for the example hosts: the fragment
and the query are cut off, the scheme is split off and lowered, a rootless
rest after a scheme is opaque (empty `Path`), a colon in the first segment of
a rootless path is refused, and an authority after two slashes is dropped from
the path. It makes none of the checks of `net/url` on control characters, on
the host and the port of the authority and on percent escapes, so it accepts
texts that `url.Parse` refuses; the properties of `Valid` are stated for every
`urlParse`, and this one is used at the example hosts only. -/
def goUrlParse (text : String) : Except String URL :=
  let raw := text.toList.takeWhile (fun c => c ≠ '#')
  match getScheme raw raw 0 with
  | .error e => .error e
  | .ok (scheme, rest0) =>
    let rest := rest0.takeWhile (fun c => c ≠ '?')
    let low := String.mk (scheme.map Char.toLower)
    match rest with
    | '/' :: '/' :: auth =>
      if scheme ≠ [] ∨ auth.head? ≠ some '/' then
        .ok { Scheme := low, Path := String.mk (auth.dropWhile (fun c => c ≠ '/')) }
      else .ok { Scheme := low, Path := String.mk rest }
    | '/' :: _ => .ok { Scheme := low, Path := String.mk rest }
    | _ =>
      if scheme ≠ [] then .ok { Scheme := low, Path := "" }
      else if ':' ∈ rest.takeWhile (fun c => c ≠ '/') then
        .error "first path segment in URL cannot contain colon"
      else .ok { Scheme := low, Path := String.mk rest }

/-- A host on which `/data` exists and `br0` is a bridge. -/
def exValidEnv : ValidEnv where
  urlParse := goUrlParse
  statNotExist := fun p => p ≠ "/data"
  linkType := fun n => if n = "br0" then .ok "bridge" else .error "Link not found"

/-- Whether a text is a URL with a scheme. -/
def hasScheme (env : ValidEnv) (text : String) : Bool :=
  match env.urlParse text with
  | .ok u => u.Scheme ≠ ""
  | .error _ => false

/-- Arguments that mount a remote list on the relative guest path `data`. -/
def exRelativeGuest : ContainerCreateArguments where
  Root := "/root.plist"
  Mount := [("http://hub/data.plist", "data")]
  Network := { ZeroTier := "", Bridge := [] }
  Port := []

/-- Arguments that pass `Valid` on `exValidEnv`. -/
def exGoodArgs : ContainerCreateArguments where
  Root := "/root.plist"
  Mount := [("/data", "/mnt/data"), ("http://hub/data.plist", "/opt")]
  Network := { ZeroTier := "", Bridge := [("br0", "dhcp")] }
  Port := [(8080, 80)]

/-- Arguments with a host port above the range. -/
def exBadPort : ContainerCreateArguments where
  Root := "/root.plist"
  Mount := []
  Network := { ZeroTier := "", Bridge := [] }
  Port := [(8080, 80), (70000, 22)]

/-- The sinks of the controllers `K1` and `K2`. -/
def sinkK1 : SinkClient := { Key := "K1", URL := "http://ac1:8966" }

/-- The sink of the controller `K2`. -/
def sinkK2 : SinkClient := { Key := "K2", URL := "http://ac2:8966" }

/-- A manager with the two sinks. -/
def exManager : containerManager := { sequence := 0, sinks := [("K1", sinkK1), ("K2", sinkK2)] }

/-- The result `x` of a command issued through `K1`. -/
def exResult : JobResult := { ID := "x", Tags := "K1", State := "SUCCESS", Level := 20, Data := "" }

/-- A response queue that delivers one payload, which decodes to `exResult`,
and sinks that accept what they are sent. -/
def exForwardEnv : ForwardEnv where
  blpop := .ok ["corex:results", "payload-x"]
  unmarshal := fun raw => if raw = "payload-x" then .ok exResult else .error "invalid character"
  respond := fun _ _ => none

/-- A `corex.create` command whose arguments decode to `exBadPort`. -/
def exCreateCmd : Command :=
  { ID := "c1", Name := "corex.create", Arguments := "bad-port", Queue := "", Tags := "", Route := "K1" }

/-- A decoder of creation arguments for `exCreateCmd`, and containers that
start. -/
def exCreateEnv : CreateEnv where
  unmarshal := fun raw => if raw = "bad-port" then .ok exBadPort else .ok exGoodArgs
  valid := exValidEnv
  start := fun _ _ _ => none

/-- The inner command of the dispatch scenario. -/
def exInner : Command :=
  { ID := "x", Name := "ping", Arguments := "", Queue := "", Tags := "", Route := "" }

/-- The command `corex.dispatch` issued on the controller key `K1`. -/
def exDispatchCmd : Command :=
  { ID := "d1", Name := "corex.dispatch", Arguments := "dispatch-7", Queue := "", Tags := "",
    Route := "K1" }

/-- A host on which container 7 runs; commands are serialized as their id, name
and tags. -/
def exDispatchEnv : DispatchEnv where
  unmarshal := fun _ => .ok { Container := 7, Command := exInner }
  runners := ["core-7"]
  uuidNew := "6ba7b810-9dad-11d1-80b4-00c04fd430c8"
  marshal := fun c => .ok (c.ID ++ "|" ++ c.Name ++ "|" ++ c.Tags)
  rpush := fun _ _ => none

end containers

namespace agent

/-- A command `ping` with id `a`, as the controller sends it: no arguments. -/
def exCmd : Cmd :=
  { Id := "a", Gid := 0, Nid := 0, Name := "ping",
    Args := { tag := "", controller := none, data := [] } }

/-- A command that asks for the queue `Q`, carries a tag of its own and a
statistics interval of 5 seconds, and addresses another node. -/
def exQueuedCmd : Cmd :=
  { Id := "p1", Gid := 9, Nid := 9, Name := "ping",
    Args := { tag := "other", controller := none,
              data := [("queue", .str "Q"), ("stats_interval", .int 5)] } }

/-- The poller of the controller key `K1` on node 1.2, with a reconnection
sleep of 4 seconds and a default statistics interval of 60 seconds. -/
def exPoller : poller where
  key := "K1"
  controller := { URL := "http://ac1:8966", Config := { URL := "http://ac1:8966" } }
  config := { MainGid := 1, MainNid := 2, MainRoles := [], StatsInterval := 60 }
  ReconnectSleepTime := 4
  LoadCmd := fun body =>
    if body = "ping-a" then .ok exCmd
    else if body = "ping-p1" then .ok exQueuedCmd
    else .error "unexpected end of JSON input"

/-- A pass in which the startup `POST` is delivered and the `GET` returns the
command `a` at once. -/
def passCommand : Pass :=
  { post := none, postTime := 0, get := .ok { StatusCode := 200, body := .ok "ping-a" },
    getTime := 0 }

/-- A pass in which the startup `POST` fails and the `GET` returns the command
`a` at once. -/
def passPostFailsCommand : Pass :=
  { post := some "connection reset by peer", postTime := 0,
    get := .ok { StatusCode := 200, body := .ok "ping-a" }, getTime := 0 }

/-- A pass in which the `GET` runs into a timeout after 60 seconds. -/
def passTimeout : Pass :=
  { post := none, postTime := 0, get := .error "net/http: request canceled (Client.Timeout)",
    getTime := 60 * second }

/-- A pass in which the controller refuses both connections at once. -/
def passRefused : Pass :=
  { post := some "dial tcp: connection refused", postTime := 0,
    get := .error "dial tcp: connection refused", getTime := 0 }

/-- A pass in which the startup `POST` fails after 5 seconds and the `GET` is
refused at once. -/
def passSlowPostRefused : Pass :=
  { post := some "dial tcp: i/o timeout", postTime := 5 * second,
    get := .error "dial tcp: connection refused", getTime := 0 }

/-- A pass in which the `GET` is answered at once with the status 500. -/
def passServerError : Pass :=
  { post := none, postTime := 0,
    get := .ok { StatusCode := 500, body := .ok "internal server error" }, getTime := 0 }

/-- A pass in which the `GET` returns an empty body after 100 seconds, the
timeout of the long poll. -/
def passIdle : Pass :=
  { post := none, postTime := 0, get := .ok { StatusCode := 200, body := .ok "" },
    getTime := 100 * second }

end agent

/-! ## The forwarder loop, runs of `create`, and `agent/lib/logger/logger.go` -/

namespace containers

/-- Nanoseconds of the pause `2 * time.Second` of `startForwarder`. -/
def forwarderPause : Nat := 2 * 1000000000

/-- The calls of the forwarder loop that the properties are about: a `Respond`
on a sink with a result, and a `time.Sleep` with its nanoseconds. -/
inductive ForwardEvent where
  | respond (sink : SinkClient) (result : JobResult)
  | sleep (ns : Nat)
deriving DecidableEq, Repr

/-- The method `containerManager.startForwarder`, observed over the calls of
`forwardNext` that `inputs` answers, one entry per pass of its `for` loop: a
pass sleeps two seconds when `forwardNext` returns an error and goes on to the
next pass at once when it returns `nil`; a run-time panic ends the loop. -/
def startForwarder (m : containerManager) : List ForwardEnv → List ForwardEvent
  | [] => []
  | env :: rest =>
    let out := forwardNext m env
    let calls := out.responds.map (fun c => ForwardEvent.respond c.1 c.2)
    match out.ret with
    | .nil => calls ++ startForwarder m rest
    | .err _ => calls ++ ForwardEvent.sleep forwarderPause :: startForwarder m rest
    | .panicked => calls

/-- The manager that `Containers` builds: the literal of lines 141 to 144
leaves `sequence` at its zero value. -/
def newManager (sinks : List (String × SinkClient)) : containerManager :=
  { sequence := 0, sinks := sinks }

/-- The values that `n` calls of `getNextSequence` in a row return, and the
manager afterwards. -/
def nextSequences : containerManager → Nat → List Nat × containerManager
  | m, 0 => ([], m)
  | m, n + 1 =>
    let r := getNextSequence m
    let rs := nextSequences r.2 n
    (r.1 :: rs.1, rs.2)

/-- Calls of `create` in a row on one manager, each with its collaborators and
its command: the pairs returned, in order, and the manager afterwards. -/
def creates : containerManager → List (CreateEnv × Command) →
    List (Option Nat × Option CreateError) × containerManager
  | m, [] => ([], m)
  | m, call :: rest =>
    let r := create m call.1 call.2
    let rs := creates r.2 rest
    (r.1 :: rs.1, rs.2)

/-- The container ids that the successful calls among `results` returned. -/
def createdIds (results : List (Option Nat × Option CreateError)) : List Nat :=
  results.filterMap (fun r => r.1)

/-- A response queue that delivers a payload which is no JSON result. -/
def exGarbageEnv : ForwardEnv where
  blpop := .ok ["corex:results", "not-json"]
  unmarshal := fun raw => if raw = "payload-x" then .ok exResult else .error "invalid character"
  respond := fun _ _ => none

/-- A response queue whose pop fails. -/
def exPopFailsEnv : ForwardEnv where
  blpop := .error "read unix /var/run/redis.socket: connection reset by peer"
  unmarshal := fun raw => if raw = "payload-x" then .ok exResult else .error "invalid character"
  respond := fun _ _ => none

/-- A `corex.create` command whose arguments decode to `exGoodArgs`. -/
def exGoodCreateCmd : Command :=
  { ID := "c2", Name := "corex.create", Arguments := "good", Queue := "", Tags := "", Route := "K1" }

/-- The collaborators of `exCreateEnv` with containers that fail to start. -/
def exStartFailsEnv : CreateEnv where
  unmarshal := exCreateEnv.unmarshal
  valid := exValidEnv
  start := fun _ _ _ => some "exec: coreX: executable file not found"

end containers

namespace agent

/-- Modelled from the spec: `MapArgs.GetIntArray`, the integer array stored
under the key, and the empty array when the key is unset or holds no array. -/
def MapArgs.GetIntArray (args : MapArgs) (key : String) : List Int :=
  match args.data.lookup key with
  | some (.ints l) => l
  | _ => []

/-- Modelled from the spec: `utils.In`, whether the level occurs in the list
(the package `utils` is not part of the sources). -/
def utilsIn (levels : List Int) (level : Int) : Bool := levels.contains level

set_option linter.dupNamespace false in
/-- Modelled from the spec: the record `pm.Message`, with the command it
belongs to. -/
structure Message where
  Id : String
  Cmd : Cmd
  Epoch : Int
  Level : Int
  Message : String
deriving DecidableEq, Repr

/-- The arguments of the `insert into logs` statement of `DBLogger.Log`. -/
structure LogRow where
  id : String
  domain : String
  name : String
  epoch : Int
  level : Int
  data : String
deriving DecidableEq, Repr

/-- The type `DBLogger`: the default levels; the connection factory is
represented by the rows handed to `db.Exec`. -/
structure DBLogger where
  defaults : List Int
deriving DecidableEq, Repr

/-- The method `DBLogger.Log`: the rows it inserts. -/
def DBLogger.Log (logger : DBLogger) (msg : Message) : List LogRow :=
  let msgLevels := msg.Cmd.Args.GetIntArray "loglevels_db"
  let levels := if msgLevels.length > 0 then msgLevels else logger.defaults
  if levels.length > 0 ∧ utilsIn levels msg.Level = false then []
  else
    [{ id := msg.Id, domain := msg.Cmd.Args.GetString "domain",
       name := msg.Cmd.Args.GetString "name", epoch := msg.Epoch, level := msg.Level,
       data := msg.Message }]

/-- The type `ACLogger`: the endpoints and the default levels; the channel
`queue` is represented by the messages sent on it. -/
structure ACLogger where
  endpoints : List String
  defaults : List Int
deriving DecidableEq, Repr

/-- The method `ACLogger.Log`: the messages it sends on `logger.queue`. -/
def ACLogger.Log (logger : ACLogger) (msg : Message) : List Message :=
  let msgLevels := msg.Cmd.Args.GetIntArray "loglevels_db"
  let levels := if msgLevels.length > 0 then msgLevels else logger.defaults
  if levels.length > 0 ∧ utilsIn levels msg.Level = false then []
  else [msg]

/-- The level list of the controller logger as the specification words it: the
array `args.loglevels_ac` of the command when it is not empty, the configured
defaults otherwise. -/
def effectiveLevelsSpec (logger : ACLogger) (msg : Message) : List Int :=
  if (msg.Cmd.Args.GetIntArray "loglevels_ac").length > 0 then
    msg.Cmd.Args.GetIntArray "loglevels_ac"
  else logger.defaults

/-- The filter of the controller logger as the specification words it: the
message is enqueued exactly when the effective list is empty or contains its
level. -/
def ACLogger.LogSpec (logger : ACLogger) (msg : Message) : List Message :=
  if effectiveLevelsSpec logger msg = [] ∨ msg.Level ∈ effectiveLevelsSpec logger msg then [msg]
  else []

/-- A controller logger that by default passes the levels 1 and 2. -/
def exACLogger : ACLogger := { endpoints := ["http://ac1:8966/log"], defaults := [1, 2] }

/-- A message of level 1 of a command that sets `loglevels_ac` to the single
level 3 and leaves `loglevels_db` unset. -/
def exMsgAcOverride : Message :=
  { Id := "a", Epoch := 1000, Level := 1, Message := "hello",
    Cmd := { exCmd with Args := { tag := "K1", controller := none,
                                  data := [("loglevels_ac", .ints [3])] } } }

/-- A message of level 1 of a command that sets `loglevels_db` to the single
level 3 and leaves `loglevels_ac` unset. -/
def exMsgDbOverride : Message :=
  { Id := "a", Epoch := 1000, Level := 1, Message := "hello",
    Cmd := { exCmd with Args := { tag := "K1", controller := none,
                                  data := [("loglevels_db", .ints [3])] } } }

end agent

/-! ## Properties of the container manager -/

namespace containers

theorem validPort_none_iff (ports : List (Int × Int)) :
    validPort ports = none ↔
      ∀ e ∈ ports, 0 ≤ e.1 ∧ e.1 ≤ 65535 ∧ 0 ≤ e.2 ∧ e.2 ≤ 65535 := by
  induction ports with
  | nil => simp [validPort]
  | cons e rest ih =>
    obtain ⟨host, guest⟩ := e
    simp only [validPort, List.forall_mem_cons]
    by_cases hh : host < 0 ∨ host > 65535
    · rw [if_pos hh]
      constructor
      · intro h; cases h
      · rintro ⟨⟨h0, h1, _, _⟩, _⟩
        rcases hh with hh | hh <;> omega
    · rw [if_neg hh]
      by_cases hg : guest < 0 ∨ guest > 65535
      · rw [if_pos hg]
        constructor
        · intro h; cases h
        · rintro ⟨⟨_, _, h0, h1⟩, _⟩
          rcases hg with hg | hg <;> omega
      · rw [if_neg hg, ih]
        constructor
        · intro h
          exact ⟨⟨by omega, by omega, by omega, by omega⟩, h⟩
        · intro h
          exact h.2

theorem Valid_none_parts (env : ValidEnv) (c : ContainerCreateArguments)
    (h : Valid env c = none) :
    c.Root ≠ "" ∧ validMount env c.Mount = none ∧ validPort c.Port = none ∧
      validBridge env c.Network.Bridge c.Network.Bridge = none := by
  unfold Valid at h
  by_cases hr : c.Root = ""
  · rw [if_pos hr] at h; cases h
  · rw [if_neg hr] at h
    cases hm : validMount env c.Mount with
    | some e => rw [hm] at h; cases h
    | none =>
      rw [hm] at h
      cases hp : validPort c.Port with
      | some e => rw [hp] at h; cases h
      | none =>
        rw [hp] at h
        exact ⟨hr, rfl, rfl, h⟩

theorem validMount_none_entries (env : ValidEnv) (mounts : List (String × String))
    (h : validMount env mounts = none) :
    ∀ e ∈ mounts, ∃ u, env.urlParse e.1 = .ok u ∧
      (u.Scheme ≠ "" ∨
        (isAbs u.Path = true ∧ isAbs e.2 = true ∧ env.statNotExist u.Path = false)) := by
  induction mounts with
  | nil => intro e he; cases he
  | cons entry rest ih =>
    obtain ⟨host, guest⟩ := entry
    intro e he
    unfold validMount at h
    cases hu : env.urlParse host with
    | error err => rw [hu] at h; cases h
    | ok u =>
      rw [hu] at h
      simp only at h
      by_cases hs : u.Scheme ≠ ""
      · rw [if_pos hs] at h
        rcases List.mem_cons.1 he with rfl | hmem
        · exact ⟨u, hu, Or.inl hs⟩
        · exact ih h e hmem
      · rw [if_neg hs] at h
        cases ha : isAbs u.Path with
        | false => simp [ha] at h
        | true =>
          cases hg : isAbs guest with
          | false => simp [ha, hg] at h
          | true =>
            cases hn : env.statNotExist u.Path with
            | true => simp [ha, hg, hn] at h
            | false =>
              simp [ha, hg, hn] at h
              rcases List.mem_cons.1 he with rfl | hmem
              · exact ⟨u, hu, Or.inr ⟨ha, hg, hn⟩⟩
              · exact ih h e hmem

theorem validMount_scheme_host_guest (env : ValidEnv) (host guest other : String) (u : URL)
    (after : List (String × String)) (hu : env.urlParse host = .ok u) (hs : u.Scheme ≠ "") :
    ∀ before : List (String × String),
      validMount env (before ++ (host, other) :: after) =
        validMount env (before ++ (host, guest) :: after) := by
  intro before
  induction before with
  | nil => simp [validMount, hu, hs]
  | cons e rest ih =>
    obtain ⟨h, g⟩ := e
    have ih2 : validMount env (rest.append ((host, other) :: after)) =
        validMount env (rest.append ((host, guest) :: after)) := ih
    simp only [List.cons_append, validMount]
    rw [ih2]

/-- C1: when the payload popped from `corex:results` decodes to a result `r`,
`forwardNext` calls `Respond` exactly once, with `r`, on the sink registered
under `r.Tags`, and returns what that call returns; when no sink is registered
under `r.Tags` it calls no sink and returns `nil`. -/
theorem forwardNext_routes_by_tags (m : containerManager) (env : ForwardEnv)
    (payload : List String) (raw : String) (r : JobResult)
    (hpop : env.blpop = .ok payload) (hraw : payload.get? 1 = some raw)
    (hparse : env.unmarshal raw = .ok r) :
    (∀ sink, m.sinks.lookup r.Tags = some sink →
      (forwardNext m env).responds = [(sink, r)] ∧
      (forwardNext m env).ret =
        (match env.respond sink r with
          | none => Returned.nil
          | some e => Returned.err e)) ∧
    (m.sinks.lookup r.Tags = none →
      (forwardNext m env).responds = [] ∧ (forwardNext m env).ret = Returned.nil) := by
  rw [List.get?_eq_getElem?] at hraw
  constructor
  · intro sink hsink
    simp [forwardNext, hpop, hraw, hparse, hsink]
  · intro hnone
    simp [forwardNext, hpop, hraw, hparse, hnone]

/-- Witness of C1: the result tagged `K1` goes to the sink of `K1`, once, and to
no other sink. -/
theorem forwardNext_routes_by_tags_witness :
    exForwardEnv.blpop = .ok ["corex:results", "payload-x"] ∧
    exForwardEnv.unmarshal "payload-x" = .ok exResult ∧
    exManager.sinks.lookup exResult.Tags = some sinkK1 ∧
    (forwardNext exManager exForwardEnv).responds = [(sinkK1, exResult)] :=
  ⟨rfl, rfl, by decide,
    ((forwardNext_routes_by_tags exManager exForwardEnv ["corex:results", "payload-x"]
      "payload-x" exResult rfl rfl rfl).1 sinkK1 (by decide)).1⟩

/-- C5: `Valid` returns an error when `Root` is empty and when some entry of
`Port` has a host or guest port outside 0..65535; when it returns `nil`, `Root`
is not empty and every port of `Port` lies in 0..65535; and when `Valid` fails
on the decoded arguments, `create` returns that error and no id, and leaves
the sequence as it was. -/
theorem Valid_rejects_root_and_ports (env : ValidEnv) (c : ContainerCreateArguments) :
    (c.Root = "" → Valid env c ≠ none) ∧
    ((∃ e ∈ c.Port, e.1 < 0 ∨ 65535 < e.1 ∨ e.2 < 0 ∨ 65535 < e.2) → Valid env c ≠ none) ∧
    (Valid env c = none →
      c.Root ≠ "" ∧ ∀ e ∈ c.Port, 0 ≤ e.1 ∧ e.1 ≤ 65535 ∧ 0 ≤ e.2 ∧ e.2 ≤ 65535) ∧
    (∀ (m : containerManager) (cenv : CreateEnv) (cmd : Command) (err : ValidError),
      cenv.valid = env → cenv.unmarshal cmd.Arguments = .ok c → Valid env c = some err →
      create m cenv cmd = ((none, some (CreateError.invalid err)), m)) := by
  have key : Valid env c = none →
      c.Root ≠ "" ∧ ∀ e ∈ c.Port, 0 ≤ e.1 ∧ e.1 ≤ 65535 ∧ 0 ≤ e.2 ∧ e.2 ≤ 65535 := by
    intro h
    obtain ⟨hr, _, hp, _⟩ := Valid_none_parts env c h
    exact ⟨hr, (validPort_none_iff c.Port).1 hp⟩
  refine ⟨?_, ?_, key, ?_⟩
  · intro hroot hv
    exact (key hv).1 hroot
  · rintro ⟨e, he, hbad⟩ hv
    have := (key hv).2 e he
    omega
  · intro m cenv cmd err henv hargs hv
    subst henv
    simp [create, hargs, hv]

/-- Witness of C5: a host port of 70000 makes `Valid` fail, and `create` return
the error without an id. -/
theorem Valid_rejects_root_and_ports_witness :
    (∃ e ∈ exBadPort.Port, e.1 < 0 ∨ 65535 < e.1 ∨ e.2 < 0 ∨ 65535 < e.2) ∧
    Valid exValidEnv exBadPort ≠ none ∧
    create exManager exCreateEnv exCreateCmd =
      ((none, some (CreateError.invalid (ValidError.invalidHostPort 70000))), exManager) :=
  ⟨⟨(70000, 22), by decide, by decide⟩,
    (Valid_rejects_root_and_ports exValidEnv exBadPort).2.1 ⟨(70000, 22), by decide, by decide⟩,
    (Valid_rejects_root_and_ports exValidEnv exBadPort).2.2.2 exManager exCreateEnv exCreateCmd
      (ValidError.invalidHostPort 70000) rfl rfl (by decide)⟩

/-- Counterexample to C6: with the host `http://hub/data.plist`, which has a
scheme, `Valid` returns `nil` although the guest `data` is neither an absolute
path nor a URL with a scheme. -/
theorem Valid_accepts_relative_guest :
    Valid exValidEnv exRelativeGuest = none ∧
    ("http://hub/data.plist", "data") ∈ exRelativeGuest.Mount ∧
    hasScheme exValidEnv "http://hub/data.plist" = true ∧
    ¬ (isAbs "data" = true ∨ hasScheme exValidEnv "data" = true) := by
  decide

/-- C6, amended: when `Valid` returns `nil`, every entry (host, guest) of
`Mount` has a host that parses as a URL and that either has a scheme, or has an
absolute path together with a guest that is an absolute path. An entry whose
guest path is relative is rejected for every host that has no URL scheme; for
a host that has a URL scheme the guest is not checked: `Valid` returns the
same whatever the guest of that entry is. -/
theorem Valid_mount_entries (env : ValidEnv) (c : ContainerCreateArguments) :
    (Valid env c = none →
      ∀ e ∈ c.Mount, ∃ u, env.urlParse e.1 = .ok u ∧
        (u.Scheme ≠ "" ∨ (isAbs u.Path = true ∧ isAbs e.2 = true))) ∧
    (∀ e ∈ c.Mount, isAbs e.2 = false → (∀ u, env.urlParse e.1 = .ok u → u.Scheme = "") →
      Valid env c ≠ none) ∧
    (∀ (before after : List (String × String)) (host guest other : String) (u : URL),
      c.Mount = before ++ (host, guest) :: after → env.urlParse host = .ok u →
      u.Scheme ≠ "" →
      Valid env { c with Mount := before ++ (host, other) :: after } = Valid env c) := by
  have key : Valid env c = none →
      ∀ e ∈ c.Mount, ∃ u, env.urlParse e.1 = .ok u ∧
        (u.Scheme ≠ "" ∨ (isAbs u.Path = true ∧ isAbs e.2 = true)) := by
    intro h e he
    obtain ⟨u, hu, hcase⟩ :=
      validMount_none_entries env c.Mount (Valid_none_parts env c h).2.1 e he
    refine ⟨u, hu, ?_⟩
    rcases hcase with hs | ⟨ha, hg, _⟩
    · exact Or.inl hs
    · exact Or.inr ⟨ha, hg⟩
  refine ⟨key, ?_, ?_⟩
  · intro e he hrel hnoscheme hv
    obtain ⟨u, hu, hcase⟩ := key hv e he
    rcases hcase with hs | ⟨_, hg⟩
    · exact hs (hnoscheme u hu)
    · rw [hrel] at hg
      cases hg
  · intro before after host guest other u hmount hu hs
    have hsame := validMount_scheme_host_guest env host guest other u after hu hs before
    simp only [Valid, hmount, hsame]

/-- Witness of C6, amended: the arguments `exGoodArgs` pass `Valid`, their
mount of `/data` has an absolute host path and an absolute guest, and the mount
of the remote list passes with the guest `data` as it does with `/opt`. -/
theorem Valid_mount_entries_witness :
    Valid exValidEnv exGoodArgs = none ∧
    (∃ u, exValidEnv.urlParse "/data" = .ok u ∧
      (u.Scheme ≠ "" ∨ (isAbs u.Path = true ∧ isAbs "/mnt/data" = true))) ∧
    Valid exValidEnv
      { exGoodArgs with
          Mount := [("/data", "/mnt/data")] ++ ("http://hub/data.plist", "data") :: [] } =
      Valid exValidEnv exGoodArgs :=
  ⟨by decide,
    (Valid_mount_entries exValidEnv exGoodArgs).1 (by decide) ("/data", "/mnt/data")
      (by decide),
    (Valid_mount_entries exValidEnv exGoodArgs).2.2 [("/data", "/mnt/data")] []
      "http://hub/data.plist" "/opt" "data" { Scheme := "http", Path := "/data.plist" } rfl rfl
      (by decide)⟩

/-- C7: for decoded arguments with container `c` and command `inner`: when `c`
is 0 or no runner is registered under `core-c`, `dispatch` returns an error
and no id and pushes nothing; otherwise it pushes exactly once, onto the queue
`core:c`, the serialization of `inner` with its `ID` replaced by the minted id
and its `Tags` replaced by the `Route` of the outer command, and it returns the
minted id. -/
theorem dispatch_pushes_inner_once (env : DispatchEnv) (cmd : Command) (c : Nat)
    (inner : Command)
    (hargs : env.unmarshal cmd.Arguments = .ok { Container := c, Command := inner }) :
    ((c = 0 ∨ coreName c ∉ env.runners) →
      (dispatch env cmd).err ≠ none ∧ (dispatch env cmd).id = none ∧
      (dispatch env cmd).pushes = []) ∧
    (c ≠ 0 → coreName c ∈ env.runners → ∀ data,
      env.marshal { inner with ID := env.uuidNew, Tags := cmd.Route } = .ok data →
      (dispatch env cmd).pushes = [("core:" ++ toString c, data)] ∧
      (dispatch env cmd).id = some env.uuidNew ∧
      (dispatch env cmd).err = (env.rpush ("core:" ++ toString c) data).map DispatchError.redis) := by
  constructor
  · rintro (h0 | hr)
    · simp [dispatch, hargs, h0]
    · by_cases h0 : c = 0
      · simp [dispatch, hargs, h0]
      · have hpos : ¬ c ≤ 0 := by omega
        simp [dispatch, hargs, hpos, hr]
  · intro h0 hr data hdata
    have hpos : ¬ c ≤ 0 := by omega
    simp [dispatch, hargs, hpos, hr, hdata, getCoreXQueue]

/-- Witness of C7: the command dispatched to container 7 on the key `K1` is
pushed once onto `core:7`, with the minted id and the tag `K1`. -/
theorem dispatch_pushes_inner_once_witness :
    exDispatchEnv.unmarshal exDispatchCmd.Arguments = .ok { Container := 7, Command := exInner } ∧
    (dispatch exDispatchEnv exDispatchCmd).pushes =
      [("core:7", "6ba7b810-9dad-11d1-80b4-00c04fd430c8|ping|K1")] ∧
    (dispatch exDispatchEnv exDispatchCmd).id = some "6ba7b810-9dad-11d1-80b4-00c04fd430c8" :=
  ⟨rfl,
    ((dispatch_pushes_inner_once exDispatchEnv exDispatchCmd 7 exInner rfl).2 (by decide)
      (by decide) "6ba7b810-9dad-11d1-80b4-00c04fd430c8|ping|K1" rfl).1,
    ((dispatch_pushes_inner_once exDispatchEnv exDispatchCmd 7 exInner rfl).2 (by decide)
      (by decide) "6ba7b810-9dad-11d1-80b4-00c04fd430c8|ping|K1" rfl).2.1⟩

end containers

/-! ## Properties of the poller and of `ping` -/

namespace agent

theorem lookup_setEntry_self (key : String) (value : ArgValue) (l : List (String × ArgValue)) :
    (setEntry key value l).lookup key = some value := by
  induction l with
  | nil => simp [setEntry, List.lookup]
  | cons e rest ih =>
    obtain ⟨k, v⟩ := e
    by_cases hk : k = key
    · simp [setEntry, hk, List.lookup]
    · have hne : (key == k) = false := by
        simp only [beq_eq_false_iff_ne, ne_eq]
        exact fun h => hk h.symm
      simp [setEntry, hk, List.lookup, hne, ih]

theorem lookup_setEntry_other (key other : String) (value : ArgValue)
    (l : List (String × ArgValue)) (h : other ≠ key) :
    (setEntry key value l).lookup other = l.lookup other := by
  induction l with
  | nil =>
    have hne : (other == key) = false := by simpa using h
    simp [setEntry, List.lookup, hne]
  | cons e rest ih =>
    obtain ⟨k, v⟩ := e
    by_cases hk : k = key
    · subst hk
      have hne : (other == k) = false := by simpa using h
      simp [setEntry, List.lookup, hne]
    · simp only [setEntry, hk, if_false, List.lookup]
      rw [ih]

theorem decorate_data_other (poll : poller) (cmd : Cmd) (k : String)
    (h : k ≠ "stats_interval") :
    (decorate poll cmd).Args.data.lookup k = cmd.Args.data.lookup k := by
  unfold decorate
  by_cases h0 : cmd.Args.GetInt "stats_interval" = 0
  · simp [h0, MapArgs.Set, MapArgs.SetTag, MapArgs.SetController,
      lookup_setEntry_other _ _ _ _ h]
  · simp [h0, MapArgs.SetTag, MapArgs.SetController]

theorem decorate_stats_interval (poll : poller) (cmd : Cmd) :
    (decorate poll cmd).Args.data.lookup "stats_interval" =
      (if cmd.Args.GetInt "stats_interval" = 0 then some (ArgValue.int poll.config.StatsInterval)
       else cmd.Args.data.lookup "stats_interval") := by
  unfold decorate
  by_cases h0 : cmd.Args.GetInt "stats_interval" = 0
  · simp [h0, MapArgs.Set, MapArgs.SetTag, MapArgs.SetController, lookup_setEntry_self]
  · simp [h0, MapArgs.SetTag, MapArgs.SetController]

theorem decorate_queue (poll : poller) (cmd : Cmd) :
    (decorate poll cmd).Args.GetString "queue" = cmd.Args.GetString "queue" := by
  unfold MapArgs.GetString
  rw [decorate_data_other poll cmd "queue" (by decide)]

theorem handed_append (a b : List Event) : handed (a ++ b) = handed a ++ handed b := by
  induction a with
  | nil => rfl
  | cons e rest ih =>
    obtain ⟨t, act⟩ := e
    cases act <;> simp [handed, ih]

theorem handed_startupPhase (s : LoopState) (i : Pass) : handed (startupPhase s i).2 = [] := by
  unfold startupPhase
  cases s.sendStartup <;> cases i.post <;> simp [handed]

theorem handed_pass (poll : poller) (s : LoopState) (i : Pass) :
    handed (pass poll s i).2 = handed (pollPhase poll (startupPhase s i).1 i).2 := by
  simp [pass, handed_append, handed_startupPhase]

theorem handed_pollPhase_command (poll : poller) (s : LoopState) (i : Pass) (resp : Response)
    (body : String) (cmd : Cmd) (hget : i.get = .ok resp) (hstatus : resp.StatusCode = 200)
    (hbody : resp.body = .ok body) (hne : body.length ≠ 0)
    (hload : poll.LoadCmd body = .ok cmd) :
    handed (pollPhase poll s i).2 =
      [(decide (cmd.Args.GetString "queue" ≠ ""), decorate poll cmd)] := by
  unfold pollPhase
  simp only [hget, hbody, hstatus, hload, ne_eq, not_true_eq_false, if_false, hne,
    decorate_queue]
  by_cases hq : cmd.Args.GetString "queue" = ""
  · simp [hq, handed]
  · simp [hq, handed]

theorem handed_pollPhase_cases (poll : poller) (s : LoopState) (i : Pass) :
    handed (pollPhase poll s i).2 = [] ∨
    ∃ resp body cmd, i.get = .ok resp ∧ resp.StatusCode = 200 ∧ resp.body = .ok body ∧
      body.length ≠ 0 ∧ poll.LoadCmd body = .ok cmd := by
  cases hget : i.get with
  | error err =>
    left
    unfold pollPhase
    simp only [hget]
    split <;> simp [handed]
  | ok resp =>
    cases hbody : resp.body with
    | error e =>
      left
      simp [pollPhase, hget, hbody, handed]
    | ok body =>
      by_cases hstatus : resp.StatusCode = 200
      · by_cases hne : body.length = 0
        · left
          simp [pollPhase, hget, hbody, hstatus, hne, handed]
        · cases hload : poll.LoadCmd body with
          | error e =>
            left
            simp [pollPhase, hget, hbody, hstatus, hne, hload, handed]
          | ok cmd =>
            right
            exact ⟨resp, body, cmd, rfl, hstatus, hbody, hne, hload⟩
      · left
        simp [pollPhase, hget, hbody, hstatus, handed]

/-- C2: the command that a pass of `longPoll` hands to the process manager,
after it parsed `cmd` from a 200 response with a non-empty body, is `cmd` with
this decoration only: `stats_interval` holds `config.Stats.Interval` when the
inbound value reads 0 (or is unset) and is kept otherwise; the tag is the key
of the poller; the controller settings are attached; `Gid` and `Nid` are those
of `config.Main`; `Id`, `Name` and every other argument are unchanged. -/
theorem longPoll_decoration (poll : poller) (s : LoopState) (i : Pass) (resp : Response)
    (body : String) (cmd : Cmd) (hget : i.get = .ok resp) (hstatus : resp.StatusCode = 200)
    (hbody : resp.body = .ok body) (hne : body.length ≠ 0)
    (hload : poll.LoadCmd body = .ok cmd) :
    ∃ q d, handed (pass poll s i).2 = [(q, d)] ∧
      d.Args.data.lookup "stats_interval" =
        (if cmd.Args.GetInt "stats_interval" = 0 then some (ArgValue.int poll.config.StatsInterval)
         else cmd.Args.data.lookup "stats_interval") ∧
      d.Args.GetInt "stats_interval" =
        (if cmd.Args.GetInt "stats_interval" = 0 then poll.config.StatsInterval
         else cmd.Args.GetInt "stats_interval") ∧
      d.Args.GetTag = poll.key ∧
      d.Args.controller = some poll.controller.Config ∧
      d.Gid = poll.config.MainGid ∧ d.Nid = poll.config.MainNid ∧
      d.Id = cmd.Id ∧ d.Name = cmd.Name ∧
      (∀ k, k ≠ "stats_interval" → d.Args.data.lookup k = cmd.Args.data.lookup k) := by
  refine ⟨decide (cmd.Args.GetString "queue" ≠ ""), decorate poll cmd, ?_, ?_, ?_, ?_, ?_, ?_,
    ?_, ?_, ?_, ?_⟩
  · rw [handed_pass]
    exact handed_pollPhase_command poll _ i resp body cmd hget hstatus hbody hne hload
  · exact decorate_stats_interval poll cmd
  · have h := decorate_stats_interval poll cmd
    by_cases h0 : cmd.Args.GetInt "stats_interval" = 0
    · rw [if_pos h0] at h
      rw [if_pos h0]
      unfold MapArgs.GetInt
      rw [h]
    · rw [if_neg h0] at h
      rw [if_neg h0]
      unfold MapArgs.GetInt
      rw [h]
  · simp [decorate, MapArgs.GetTag, MapArgs.SetTag, MapArgs.SetController]
  · simp [decorate, MapArgs.SetTag, MapArgs.SetController]
  · rfl
  · rfl
  · rfl
  · rfl
  · intro k hk
    exact decorate_data_other poll cmd k hk

/-- Witness of C2: the command `p1`, which arrives with the tag `other`, node
9.9 and a statistics interval of 5, is handed over with the tag `K1`, node
1.2, its interval and its queue. -/
theorem longPoll_decoration_witness :
    exPoller.LoadCmd "ping-p1" = .ok exQueuedCmd ∧
    ∃ q d, handed (pass exPoller (entry 0)
        { passCommand with get := .ok { StatusCode := 200, body := .ok "ping-p1" } }).2 =
        [(q, d)] ∧
      d.Args.GetInt "stats_interval" = 5 ∧ d.Args.GetTag = "K1" ∧ d.Gid = 1 ∧ d.Nid = 2 ∧
      d.Id = "p1" ∧ d.Args.data.lookup "queue" = some (ArgValue.str "Q") := by
  refine ⟨rfl, ?_⟩
  obtain ⟨q, d, h1, _, h3, h4, _, h6, h7, h8, _, h10⟩ :=
    longPoll_decoration exPoller (entry 0)
      { passCommand with get := .ok { StatusCode := 200, body := .ok "ping-p1" } }
      { StatusCode := 200, body := .ok "ping-p1" } "ping-p1" exQueuedCmd rfl rfl rfl
      (by decide) rfl
  exact ⟨q, d, h1, h3, h4, h6, h7, h8, (h10 "queue" (by decide)).trans (by decide)⟩

/-- C3: one pass of `longPoll` hands at most one command to the process
manager, and hands one only when the `GET` succeeded with status 200, a
non-empty body and a body that `LoadCmd` parses; it then makes exactly one
call, `RunCmd` when `args.queue` is the empty string and `RunCmdQueued`
otherwise, with the decorated command. A failed `GET`, a body that cannot be
read, another status, an empty body and a parse failure hand over nothing. -/
theorem longPoll_hands_at_most_one (poll : poller) (s : LoopState) (i : Pass) :
    (handed (pass poll s i).2).length ≤ 1 ∧
    (handed (pass poll s i).2 ≠ [] →
      ∃ resp body cmd, i.get = .ok resp ∧ resp.StatusCode = 200 ∧ resp.body = .ok body ∧
        body.length ≠ 0 ∧ poll.LoadCmd body = .ok cmd) ∧
    (∀ resp body cmd, i.get = .ok resp → resp.StatusCode = 200 → resp.body = .ok body →
      body.length ≠ 0 → poll.LoadCmd body = .ok cmd →
      (cmd.Args.GetString "queue" = "" →
        handed (pass poll s i).2 = [(false, decorate poll cmd)]) ∧
      (cmd.Args.GetString "queue" ≠ "" →
        handed (pass poll s i).2 = [(true, decorate poll cmd)])) ∧
    (∀ resp, i.get = .ok resp →
      (resp.StatusCode ≠ 200 ∨ resp.body = .ok "" ∨
        ∃ body e, resp.body = .ok body ∧ poll.LoadCmd body = .error e) →
      handed (pass poll s i).2 = []) := by
  have hcmd : ∀ resp body cmd, i.get = .ok resp → resp.StatusCode = 200 →
      resp.body = .ok body → body.length ≠ 0 → poll.LoadCmd body = .ok cmd →
      handed (pass poll s i).2 =
        [(decide (cmd.Args.GetString "queue" ≠ ""), decorate poll cmd)] := by
    intro resp body cmd hget hstatus hbody hne hload
    rw [handed_pass]
    exact handed_pollPhase_command poll _ i resp body cmd hget hstatus hbody hne hload
  have hcases := handed_pollPhase_cases poll (startupPhase s i).1 i
  rw [← handed_pass] at hcases
  refine ⟨?_, ?_, ?_, ?_⟩
  · rcases hcases with h | ⟨resp, body, cmd, hget, hstatus, hbody, hne, hload⟩
    · simp [h]
    · simp [hcmd resp body cmd hget hstatus hbody hne hload]
  · intro hne
    rcases hcases with h | h
    · exact absurd h hne
    · exact h
  · intro resp body cmd hget hstatus hbody hne hload
    have h := hcmd resp body cmd hget hstatus hbody hne hload
    constructor
    · intro hq
      simpa [hq] using h
    · intro hq
      simpa [hq] using h
  · intro resp hget hbad
    rcases hcases with h | ⟨resp2, body, cmd, hget2, hstatus, hbody, hne, hload⟩
    · exact h
    · rw [hget] at hget2
      cases hget2
      rcases hbad with hs | hb | ⟨body2, e, hb, hl⟩
      · exact absurd hstatus hs
      · rw [hbody] at hb
        cases hb
        exact absurd rfl hne
      · rw [hbody] at hb
        cases hb
        rw [hload] at hl
        cases hl

/-- Witness of C3: the command `a`, which names no queue, is handed over by one
call of `RunCmd`. -/
theorem longPoll_hands_at_most_one_witness :
    exCmd.Args.GetString "queue" = "" ∧
    handed (pass exPoller (entry 0) passCommand).2 = [(false, decorate exPoller exCmd)] :=
  ⟨by decide,
    ((longPoll_hands_at_most_one exPoller (entry 0) passCommand).2.2.1
      { StatusCode := 200, body := .ok "ping-a" } "ping-a" exCmd rfl rfl rfl (by decide)
      rfl).1 (by decide)⟩

/-- Counterexample to C4: the data of the result of `ping` is the word `pong`
between two double quotes, six characters in all, so it is no word of five
characters between double quotes. -/
theorem ping_data_is_not_five_characters :
    (ping exCmd 0).map (fun r => r.Data.toList) = [['"', 'p', 'o', 'n', 'g', '"']] ∧
    ¬ ∃ w : List Char, w.length = 5 ∧
      ∀ r ∈ ping exCmd 0, r.Data.toList = ['"'] ++ w ++ ['"'] := by
  refine ⟨by decide, ?_⟩
  rintro ⟨w, hw, h⟩
  have h1 := h _ (List.mem_singleton_self _)
  have h2 := congrArg List.length h1
  simp [hw] at h2

/-- C4, amended: for every command, `ping` calls the result handler exactly
once, with a result whose `Id`, `Gid`, `Nid` and `Args` (hence the routing
tag) are those of the command, whose `State` is `SUCCESS`, whose `Level` is
`L_RESULT_JSON` (20), whose `Time` is 0 and whose `Data` is the four
characters `pong` between two double quotes. -/
theorem ping_result (cmd : Cmd) (now : Int) :
    ∃ r, ping cmd now = [r] ∧
      r.Id = cmd.Id ∧ r.Gid = cmd.Gid ∧ r.Nid = cmd.Nid ∧ r.Args = cmd.Args ∧
      r.Args.GetTag = cmd.Args.GetTag ∧ r.StartTime = now ∧
      r.State = "SUCCESS" ∧ r.Level = L_RESULT_JSON ∧ r.Level = 20 ∧ r.Time = 0 ∧
      r.Data.toList = ['"', 'p', 'o', 'n', 'g', '"'] :=
  ⟨_, rfl, rfl, rfl, rfl, rfl, rfl, rfl, rfl, rfl, rfl, rfl, rfl⟩

theorem startupDiscipline_pollPhase (poll : poller) (s : LoopState) (i : Pass)
    (tried : Bool) (rest : List Action) :
    startupDiscipline s.sendStartup tried ((pollPhase poll s i).2.map Event.action ++ rest) =
      ((!s.sendStartup || tried) &&
        startupDiscipline (pollPhase poll s i).1.sendStartup false rest) := by
  unfold pollPhase
  cases hget : i.get with
  | error err =>
    simp only
    by_cases hlt : unix (s.clock + i.getTime) - s.lastfail < (poll.ReconnectSleepTime : Int)
    · rw [if_pos hlt]
      cases hlost : connectionLost err <;> simp [startupDiscipline, hlost]
    · rw [if_neg hlt]
      cases hlost : connectionLost err <;> simp [startupDiscipline, hlost]
  | ok resp =>
    cases hbody : resp.body with
    | error e => simp [hbody, startupDiscipline]
    | ok body =>
      simp only [hbody]
      by_cases hstatus : resp.StatusCode = 200
      · by_cases hne : body.length = 0
        · simp [hstatus, hne, startupDiscipline]
        · cases hload : poll.LoadCmd body with
          | error e => simp [hstatus, hne, hload, startupDiscipline]
          | ok cmd =>
            by_cases hq : (decorate poll cmd).Args.GetString "queue" = ""
            · simp [hstatus, hne, hload, hq, startupDiscipline]
            · simp [hstatus, hne, hload, hq, startupDiscipline]
      · simp [hstatus, startupDiscipline]

theorem startupDiscipline_pass (poll : poller) (s : LoopState) (i : Pass)
    (rest : List Action) :
    startupDiscipline s.sendStartup false ((pass poll s i).2.map Event.action ++ rest) =
      startupDiscipline (pass poll s i).1.sendStartup false rest := by
  obtain ⟨flag, lastfail, clock⟩ := s
  cases flag
  · have h := startupDiscipline_pollPhase poll ⟨false, lastfail, clock⟩ i false rest
    simpa [pass, startupPhase] using h
  · cases hpost : i.post with
    | none =>
      have h := startupDiscipline_pollPhase poll ⟨false, lastfail, clock + i.postTime⟩ i true rest
      simpa [pass, startupPhase, hpost, startupDiscipline] using h
    | some e =>
      have h := startupDiscipline_pollPhase poll ⟨true, lastfail, clock + i.postTime⟩ i true rest
      simpa [pass, startupPhase, hpost, startupDiscipline] using h

theorem startupDiscipline_runLoop (poll : poller) (inputs : List Pass) :
    ∀ s : LoopState,
      startupDiscipline s.sendStartup false ((runLoop poll s inputs).2.map Event.action) =
        true := by
  induction inputs with
  | nil => intro s; simp [runLoop, startupDiscipline]
  | cons i rest ih =>
    intro s
    simp only [runLoop, List.map_append]
    rw [startupDiscipline_pass]
    exact ih _

theorem handed_runLoop_unreachable (poll : poller) (inputs : List Pass)
    (hfail : ∀ i ∈ inputs, ∃ e, i.get = .error e) :
    ∀ s : LoopState, handed (runLoop poll s inputs).2 = [] := by
  induction inputs with
  | nil => intro s; rfl
  | cons i rest ih =>
    intro s
    simp only [runLoop, handed_append]
    rw [ih (fun j hj => hfail j (List.mem_cons_of_mem _ hj))]
    obtain ⟨e, he⟩ := hfail i (List.mem_cons_self _ _)
    rcases handed_pollPhase_cases poll (startupPhase s i).1 i with h |
      ⟨resp, _, _, hget, _⟩
    · rw [handed_pass, h]
      rfl
    · rw [he] at hget
      cases hget

theorem startupPhase_lastfail (s : LoopState) (i : Pass) :
    (startupPhase s i).1.lastfail = s.lastfail := by
  unfold startupPhase
  cases s.sendStartup <;> cases i.post <;> rfl

theorem startupPhase_clock_ge (s : LoopState) (i : Pass) :
    s.clock ≤ (startupPhase s i).1.clock := by
  unfold startupPhase
  cases s.sendStartup <;> cases i.post <;> simp

theorem getTimes_append (a b : List Event) : getTimes (a ++ b) = getTimes a ++ getTimes b := by
  induction a with
  | nil => rfl
  | cons e rest ih =>
    obtain ⟨t, act⟩ := e
    cases act <;> simp [getTimes, ih]

theorem getTimes_startupPhase (s : LoopState) (i : Pass) :
    getTimes (startupPhase s i).2 = [] := by
  unfold startupPhase
  cases s.sendStartup <;> cases i.post <;> simp [getTimes]

theorem getTimes_pollPhase (poll : poller) (s : LoopState) (i : Pass) :
    getTimes (pollPhase poll s i).2 = [s.clock] := by
  unfold pollPhase
  cases hget : i.get with
  | error err =>
    simp only
    by_cases hlt : unix (s.clock + i.getTime) - s.lastfail < (poll.ReconnectSleepTime : Int)
    · simp [hlt, getTimes]
    · simp [hlt, getTimes]
  | ok resp =>
    cases hbody : resp.body with
    | error e => simp [hbody, getTimes]
    | ok body =>
      simp only [hbody]
      by_cases hstatus : resp.StatusCode = 200
      · by_cases hne : body.length = 0
        · simp [hstatus, hne, getTimes]
        · cases hload : poll.LoadCmd body with
          | error e => simp [hstatus, hne, hload, getTimes]
          | ok cmd =>
            by_cases hq : (decorate poll cmd).Args.GetString "queue" = ""
            · simp [hstatus, hne, hload, hq, getTimes]
            · simp [hstatus, hne, hload, hq, getTimes]
      · simp [hstatus, getTimes]

theorem getTimes_pass (poll : poller) (s : LoopState) (i : Pass) :
    getTimes (pass poll s i).2 = [(startupPhase s i).1.clock] := by
  simp [pass, getTimes_append, getTimes_startupPhase, getTimes_pollPhase]

theorem sleeps_append (a b : List Event) : sleeps (a ++ b) = sleeps a ++ sleeps b := by
  induction a with
  | nil => rfl
  | cons e rest ih =>
    obtain ⟨t, act⟩ := e
    cases act <;> simp [sleeps, ih]

theorem sleeps_startupPhase (s : LoopState) (i : Pass) : sleeps (startupPhase s i).2 = [] := by
  unfold startupPhase
  cases s.sendStartup <;> cases i.post <;> simp [sleeps]

/-- Counterexample to C8: after a `GET` that fails with a timeout, whose text
contains neither `connection refused` nor `EOF`, the next pass hands the
command `a` to the process manager with no startup event posted since that
failure; and on entry, when the startup `POST` fails, the same pass polls and
hands the command `a` over with no startup event delivered at all. -/
theorem longPoll_runs_command_without_startup :
    (longPoll exPoller 0 [passTimeout, passCommand]).2.map Event.action =
      [.postStartup true, .get (some "net/http: request canceled (Client.Timeout)"),
       .get none, .RunCmd (decorate exPoller exCmd)] ∧
    (longPoll exPoller 0 [passPostFailsCommand]).2.map Event.action =
      [.postStartup false, .get none, .RunCmd (decorate exPoller exCmd)] ∧
    delivered (longPoll exPoller 0 [passPostFailsCommand]).2 = [] := by
  decide

/-- C8, amended: a startup event is owed on entry and from every failed `GET`
whose error text contains `connection refused` or `EOF` (no other failure of a
`GET` makes one owed) until a startup `POST` is delivered. In every run of
`longPoll` a startup `POST` is made only while one is owed, at most once per
pass, and every `GET` made while one is owed directly follows a startup
`POST` of the same pass: so at most one startup event is delivered per entry or
lost connection, and a command is handed over either after the owed startup
event was delivered or in a pass whose startup `POST` failed. -/
theorem longPoll_startup_discipline (poll : poller) (now : Nat) (inputs : List Pass) :
    startupDiscipline true false ((longPoll poll now inputs).2.map Event.action) = true ∧
    (entry now).sendStartup = true ∧
    (∀ (s : LoopState) (i : Pass) (err : String), i.get = .error err →
      (pass poll s i).1.sendStartup =
        (connectionLost err || (s.sendStartup && i.post.isSome))) ∧
    (∀ (s : LoopState) (i : Pass) (resp : Response), i.get = .ok resp →
      (pass poll s i).1.sendStartup = (s.sendStartup && i.post.isSome)) ∧
    (∀ (s : LoopState) (i : Pass), s.sendStartup = true →
      (pass poll s i).2.head? = some ⟨s.clock, .postStartup i.post.isNone⟩) := by
  refine ⟨startupDiscipline_runLoop poll inputs (entry now), rfl, ?_, ?_, ?_⟩
  · intro s i err hget
    have hpoll : ∀ s0 : LoopState,
        (pollPhase poll s0 i).1.sendStartup = (connectionLost err || s0.sendStartup) := by
      intro s0
      unfold pollPhase
      simp only [hget]
      by_cases hlt : unix (s0.clock + i.getTime) - s0.lastfail < (poll.ReconnectSleepTime : Int)
      · cases hlost : connectionLost err <;> simp [hlt]
      · cases hlost : connectionLost err <;> simp [hlt]
    simp only [pass, hpoll]
    unfold startupPhase
    obtain ⟨flag, lastfail, clock⟩ := s
    cases flag <;> cases i.post <;> simp
  · intro s i resp hget
    have hpoll : ∀ s0 : LoopState, (pollPhase poll s0 i).1.sendStartup = s0.sendStartup := by
      intro s0
      unfold pollPhase
      simp only [hget]
      cases hbody : resp.body with
      | error e => simp
      | ok body =>
        simp only
        by_cases hstatus : resp.StatusCode = 200
        · by_cases hne : body.length = 0
          · simp [hstatus, hne]
          · cases hload : poll.LoadCmd body with
            | error e => simp [hstatus, hne]
            | ok cmd =>
              by_cases hq : (decorate poll cmd).Args.GetString "queue" = ""
              · simp [hstatus, hne, hq]
              · simp [hstatus, hne, hq]
        · simp [hstatus]
    simp only [pass, hpoll]
    unfold startupPhase
    obtain ⟨flag, lastfail, clock⟩ := s
    cases flag <;> cases i.post <;> simp
  · intro s i hs
    simp only [pass, startupPhase, hs, if_true]
    cases i.post <;> simp

/-- Witness of C8, amended: after a refused `GET` the next pass posts the
startup event first, and the run keeps the discipline. -/
theorem longPoll_startup_discipline_witness :
    passRefused.get = .error "dial tcp: connection refused" ∧
    (pass exPoller (entry 0) passRefused).1.sendStartup = true ∧
    (pass exPoller (pass exPoller (entry 0) passRefused).1 passCommand).2.head? =
      some ⟨4 * second, .postStartup true⟩ :=
  ⟨rfl,
    ((longPoll_startup_discipline exPoller 0 []).2.2.1 (entry 0) passRefused
      "dial tcp: connection refused" rfl).trans (by decide),
    ((longPoll_startup_discipline exPoller 0 []).2.2.2.2
      (pass exPoller (entry 0) passRefused).1 passCommand (by decide)).trans (by decide)⟩

theorem pollPhase_get_failed (poll : poller) (s : LoopState) (i : Pass) (err : String)
    (hget : i.get = .error err) :
    (unix (s.clock + i.getTime) - s.lastfail < (poll.ReconnectSleepTime : Int) →
      sleeps (pollPhase poll s i).2 = [poll.ReconnectSleepTime * second] ∧
      (pollPhase poll s i).1.clock = s.clock + i.getTime + poll.ReconnectSleepTime * second) ∧
    (¬ unix (s.clock + i.getTime) - s.lastfail < (poll.ReconnectSleepTime : Int) →
      sleeps (pollPhase poll s i).2 = [] ∧ (pollPhase poll s i).1.clock = s.clock + i.getTime) ∧
    (pollPhase poll s i).1.lastfail = unix (pollPhase poll s i).1.clock := by
  unfold pollPhase
  simp only [hget]
  by_cases hlt : unix (s.clock + i.getTime) - s.lastfail < (poll.ReconnectSleepTime : Int)
  · simp [hlt, sleeps]
  · simp [hlt, sleeps]

theorem pollPhase_answered_lastfail (poll : poller) (s : LoopState) (i : Pass)
    (resp : Response) (hget : i.get = .ok resp) :
    (pollPhase poll s i).1.lastfail = s.lastfail := by
  unfold pollPhase
  simp only [hget]
  cases hbody : resp.body with
  | error e => simp
  | ok body =>
    simp only
    by_cases hstatus : resp.StatusCode = 200
    · by_cases hne : body.length = 0
      · simp [hstatus, hne]
      · cases hload : poll.LoadCmd body with
        | error e => simp [hstatus, hne]
        | ok cmd =>
          by_cases hq : (decorate poll cmd).Args.GetString "queue" = ""
          · simp [hstatus, hne, hq]
          · simp [hstatus, hne, hq]
    · simp [hstatus]

/-- Counterexample to C9: a pass whose `GET` is answered with the status 500,
100 seconds after entry, is a failed pass (it logs the failure and sleeps two
seconds), and it leaves `lastfail` at 0, the time of entry, while the clock
reads 102 seconds. -/
theorem longPoll_server_error_keeps_lastfail :
    (longPoll exPoller 0 [passIdle, passServerError]).1 =
      { sendStartup := false, lastfail := 0, clock := 102 * second } ∧
    sleeps (longPoll exPoller 0 [passIdle, passServerError]).2 = [2 * second] ∧
    (longPoll exPoller 0 [passIdle, passServerError]).1.lastfail ≠
      unix (longPoll exPoller 0 [passIdle, passServerError]).1.clock := by
  decide

/-- C9, amended: when the `GET` of a pass fails at the unix time `t` with
`lastfail` recorded as `f`, the pass sleeps `ReconnectSleepTime` seconds, once,
when `t - f < ReconnectSleepTime`, and does not sleep otherwise; in both cases
it then sets `lastfail` to the unix time at the end of the pass, after the
sleep if there was one. `lastfail` is updated on every failed `GET` and on no
other failure: a pass whose `GET` is answered (unreadable body, status other
than 200, empty body, parse failure, command) leaves `lastfail` as it was. -/
theorem longPoll_failure_backoff (poll : poller) (s : LoopState) (i : Pass) :
    (∀ err, i.get = .error err →
      (unix ((startupPhase s i).1.clock + i.getTime) - s.lastfail <
          (poll.ReconnectSleepTime : Int) →
        sleeps (pass poll s i).2 = [poll.ReconnectSleepTime * second] ∧
        (pass poll s i).1.clock =
          (startupPhase s i).1.clock + i.getTime + poll.ReconnectSleepTime * second) ∧
      (¬ unix ((startupPhase s i).1.clock + i.getTime) - s.lastfail <
          (poll.ReconnectSleepTime : Int) →
        sleeps (pass poll s i).2 = [] ∧
        (pass poll s i).1.clock = (startupPhase s i).1.clock + i.getTime) ∧
      (pass poll s i).1.lastfail = unix (pass poll s i).1.clock) ∧
    (∀ resp, i.get = .ok resp → (pass poll s i).1.lastfail = s.lastfail) := by
  constructor
  · intro err hget
    have h := pollPhase_get_failed poll (startupPhase s i).1 i err hget
    rw [startupPhase_lastfail] at h
    simpa [pass, sleeps_append, sleeps_startupPhase] using h
  · intro resp hget
    simp only [pass]
    rw [pollPhase_answered_lastfail poll _ i resp hget, startupPhase_lastfail]

/-- Witness of C9, amended: a `GET` refused on entry, 0 seconds after
`lastfail`, is followed by one sleep of 4 seconds, and `lastfail` becomes 4; a
`GET` answered with the status 500 leaves `lastfail` at 0. -/
theorem longPoll_failure_backoff_witness :
    unix ((startupPhase (entry 0) passRefused).1.clock + passRefused.getTime) -
        (entry 0).lastfail < (exPoller.ReconnectSleepTime : Int) ∧
    sleeps (pass exPoller (entry 0) passRefused).2 = [4 * second] ∧
    (pass exPoller (entry 0) passRefused).1.lastfail = 4 ∧
    (pass exPoller (entry 0) passServerError).1.lastfail = 0 :=
  ⟨by decide,
    (((longPoll_failure_backoff exPoller (entry 0) passRefused).1
      "dial tcp: connection refused" rfl).1 (by decide)).1,
    ((longPoll_failure_backoff exPoller (entry 0) passRefused).1
      "dial tcp: connection refused" rfl).2.2.trans (by decide),
    ((longPoll_failure_backoff exPoller (entry 0) passServerError).2
      { StatusCode := 500, body := .ok "internal server error" } rfl).trans (by decide)⟩

/-- Counterexample to C10: with a reconnection sleep of 4 seconds and every
`GET` failing, a first `GET` refused 5 seconds after entry is retried at once,
so two consecutive attempts are made at the same clock reading; likewise a
first refusal after 100 idle seconds is retried at once. -/
theorem longPoll_retries_without_backoff :
    exPoller.ReconnectSleepTime = 4 ∧
    getTimes (longPoll exPoller 0 [passSlowPostRefused, passRefused]).2 =
      [5 * second, 5 * second] ∧
    handed (longPoll exPoller 0 [passSlowPostRefused, passRefused]).2 = [] ∧
    getTimes (longPoll exPoller 0 [passIdle, passRefused, passRefused]).2 =
      [0, 100 * second, 100 * second] := by
  decide

/-- C10, amended: while every `GET` fails, the poller hands no command to the
process manager; and when a `GET` fails less than `ReconnectSleepTime` seconds
(in unix time) after the recorded `lastfail`, at least `ReconnectSleepTime`
seconds pass between that attempt and the next one. -/
theorem longPoll_unreachable_backoff (poll : poller) (s : LoopState) :
    (∀ inputs : List Pass, (∀ i ∈ inputs, ∃ e, i.get = .error e) →
      handed (runLoop poll s inputs).2 = []) ∧
    (∀ (i1 i2 : Pass) (err : String), i1.get = .error err →
      unix ((startupPhase s i1).1.clock + i1.getTime) - s.lastfail <
        (poll.ReconnectSleepTime : Int) →
      ∃ g1 g2, getTimes (runLoop poll s [i1, i2]).2 = [g1, g2] ∧
        g1 + poll.ReconnectSleepTime * second ≤ g2) := by
  constructor
  · intro inputs hfail
    exact handed_runLoop_unreachable poll inputs hfail s
  · intro i1 i2 err hget hlt
    refine ⟨(startupPhase s i1).1.clock, (startupPhase (pass poll s i1).1 i2).1.clock, ?_, ?_⟩
    · simp [runLoop, getTimes_append, getTimes_pass, getTimes]
    · have h := pollPhase_get_failed poll (startupPhase s i1).1 i1 err hget
      rw [startupPhase_lastfail] at h
      have hclock : (pass poll s i1).1.clock =
          (startupPhase s i1).1.clock + i1.getTime + poll.ReconnectSleepTime * second :=
        (h.1 hlt).2
      have hge := startupPhase_clock_ge (pass poll s i1).1 i2
      omega

/-- Witness of C10, amended: two refusals on entry are 4 seconds apart, and no
command is handed over. -/
theorem longPoll_unreachable_backoff_witness :
    handed (runLoop exPoller (entry 0) [passRefused, passRefused]).2 = [] ∧
    ∃ g1 g2, getTimes (runLoop exPoller (entry 0) [passRefused, passRefused]).2 = [g1, g2] ∧
      g1 + exPoller.ReconnectSleepTime * second ≤ g2 :=
  ⟨(longPoll_unreachable_backoff exPoller (entry 0)).1 [passRefused, passRefused]
      (by intro i hi; exact ⟨"dial tcp: connection refused", by
        rcases List.mem_cons.1 hi with h | h
        · rw [h]; rfl
        · rw [List.mem_singleton.1 h]; rfl⟩),
    (longPoll_unreachable_backoff exPoller (entry 0)).2 passRefused passRefused
      "dial tcp: connection refused" rfl (by decide)⟩

end agent

/-! ## Properties of the forwarder loop and of the container ids -/

namespace containers

theorem create_cases (m : containerManager) (env : CreateEnv) (cmd : Command) :
    ((create m env cmd).1.1 = none ∧
      ((create m env cmd).2.sequence = m.sequence ∨
        (create m env cmd).2.sequence = (m.sequence + 1) % 2 ^ 64)) ∨
    ((create m env cmd).1.1 = some ((m.sequence + 1) % 2 ^ 64) ∧
      (create m env cmd).2.sequence = (m.sequence + 1) % 2 ^ 64) := by
  unfold create
  cases hargs : env.unmarshal cmd.Arguments with
  | error e => simp
  | ok args =>
    cases hvalid : Valid env.valid args with
    | some e => simp [hvalid]
    | none =>
      cases hstart : env.start (getNextSequence m).1 cmd.Route args with
      | some e =>
        simp only [hvalid, hstart]
        simp [getNextSequence]
      | none =>
        simp only [hvalid, hstart]
        simp [getNextSequence]

theorem nextSequences_range (n : Nat) :
    ∀ m : containerManager, m.sequence + n < 2 ^ 64 →
      (nextSequences m n).1 = List.range' (m.sequence + 1) n := by
  induction n with
  | zero => intro m _; rfl
  | succ k ih =>
    intro m hm
    have hmod : (m.sequence + 1) % 2 ^ 64 = m.sequence + 1 := Nat.mod_eq_of_lt (by omega)
    have hrest := ih (getNextSequence m).2 (by simp only [getNextSequence, hmod]; omega)
    simp only [nextSequences, hrest, List.range'_succ]
    simp only [getNextSequence, hmod]

theorem creates_ids (calls : List (CreateEnv × Command)) :
    ∀ m : containerManager, m.sequence + calls.length < 2 ^ 64 →
      (createdIds (creates m calls).1).Pairwise (fun a b => a < b) ∧
      ∀ id ∈ createdIds (creates m calls).1,
        m.sequence < id ∧ id ≤ m.sequence + calls.length := by
  induction calls with
  | nil =>
    intro m _
    simp [creates, createdIds]
  | cons call rest ih =>
    intro m hm
    simp only [List.length_cons] at hm
    have hmod : (m.sequence + 1) % 2 ^ 64 = m.sequence + 1 := Nat.mod_eq_of_lt (by omega)
    rcases create_cases m call.1 call.2 with ⟨hnone, hseq⟩ | ⟨hsome, hseq⟩
    · have hle : (create m call.1 call.2).2.sequence ≤ m.sequence + 1 ∧
          m.sequence ≤ (create m call.1 call.2).2.sequence := by
        rcases hseq with h | h
        · omega
        · rw [hmod] at h; omega
      obtain ⟨hpair, hids⟩ := ih (create m call.1 call.2).2 (by omega)
      simp only [creates, createdIds, List.filterMap_cons, hnone]
      refine ⟨hpair, ?_⟩
      intro id hid
      have := hids id hid
      simp only [List.length_cons]
      omega
    · rw [hmod] at hsome hseq
      obtain ⟨hpair, hids⟩ := ih (create m call.1 call.2).2 (by omega)
      simp only [creates, createdIds, List.filterMap_cons, hsome]
      refine ⟨List.pairwise_cons.2 ⟨?_, hpair⟩, ?_⟩
      · intro id hid
        have := hids id hid
        omega
      · intro id hid
        simp only [List.length_cons]
        rcases List.mem_cons.1 hid with h | h
        · omega
        · have := hids id h
          omega

/-- Counterexample to C11: a payload that is no JSON result makes `forwardNext`
call no sink and return `nil`, so `startForwarder` goes on to the next pop, and
forwards its result, without a sleep in between. -/
theorem forwardNext_parse_error_no_wait :
    (forwardNext exManager exGarbageEnv).responds = [] ∧
    (forwardNext exManager exGarbageEnv).ret = Returned.nil ∧
    startForwarder exManager [exGarbageEnv, exForwardEnv] =
      [ForwardEvent.respond sinkK1 exResult] := by
  decide

/-- C11, amended: when the pop from `corex:results` fails, `forwardNext` calls
no sink and returns the error, and `startForwarder` sleeps two seconds before
the next pop; when the popped payload does not parse, `forwardNext` calls no
sink and returns `nil`, and `startForwarder` goes on to the next pop without
sleeping; in both cases the loop continues with the passes that follow. -/
theorem startForwarder_survives_failures (m : containerManager) (env : ForwardEnv)
    (rest : List ForwardEnv) :
    (∀ e, env.blpop = .error e →
      (forwardNext m env).responds = [] ∧ (forwardNext m env).ret = Returned.err e ∧
      startForwarder m (env :: rest) =
        ForwardEvent.sleep (2 * 1000000000) :: startForwarder m rest) ∧
    (∀ payload raw e, env.blpop = .ok payload → payload.get? 1 = some raw →
      env.unmarshal raw = .error e →
      (forwardNext m env).responds = [] ∧ (forwardNext m env).ret = Returned.nil ∧
      startForwarder m (env :: rest) = startForwarder m rest) := by
  constructor
  · intro e hpop
    have hout : forwardNext m env = { responds := [], ret := Returned.err e } := by
      simp [forwardNext, hpop]
    simp [startForwarder, hout, forwarderPause]
  · intro payload raw e hpop hraw hparse
    rw [List.get?_eq_getElem?] at hraw
    have hout : forwardNext m env = { responds := [], ret := Returned.nil } := by
      simp [forwardNext, hpop, hraw, hparse]
    simp [startForwarder, hout]

/-- Witness of C11, amended: a failed pop is followed by a sleep of two seconds
and then by the forwarding of the next result. -/
theorem startForwarder_survives_failures_witness :
    exPopFailsEnv.blpop = .error "read unix /var/run/redis.socket: connection reset by peer" ∧
    startForwarder exManager [exPopFailsEnv, exForwardEnv] =
      [ForwardEvent.sleep (2 * 1000000000), ForwardEvent.respond sinkK1 exResult] :=
  ⟨rfl,
    ((startForwarder_survives_failures exManager exPopFailsEnv [exForwardEnv]).1
      "read unix /var/run/redis.socket: connection reset by peer" rfl).2.2.trans (by decide)⟩

/-- C12: `getNextSequence` returns the stored sequence plus one modulo 2^64 and
stores it; on a fresh manager fewer than 2^64 calls in a row return 1, 2, 3,
..., the call number `k + 1` returning `k + 1`; and in a run of fewer than 2^64
calls of `create` on a fresh manager the ids of the successful calls are
strictly increasing, hence pairwise different, and lie between 1 and the
number of calls, so none of them is 0. -/
theorem getNextSequence_mints_increasing_ids (sinks : List (String × SinkClient)) :
    (∀ m : containerManager,
      (getNextSequence m).1 = (m.sequence + 1) % 2 ^ 64 ∧
      (getNextSequence m).2.sequence = (m.sequence + 1) % 2 ^ 64 ∧
      (getNextSequence m).2.sinks = m.sinks) ∧
    (∀ n, n < 2 ^ 64 →
      (nextSequences (newManager sinks) n).1 = List.range' 1 n ∧
      ∀ k, k < n → (nextSequences (newManager sinks) n).1.get? k = some (k + 1)) ∧
    (∀ calls : List (CreateEnv × Command), calls.length < 2 ^ 64 →
      (createdIds (creates (newManager sinks) calls).1).Pairwise (fun a b => a < b) ∧
      (createdIds (creates (newManager sinks) calls).1).Nodup ∧
      ∀ id ∈ createdIds (creates (newManager sinks) calls).1,
        id ≠ 0 ∧ 1 ≤ id ∧ id ≤ calls.length) := by
  refine ⟨fun m => ⟨rfl, rfl, rfl⟩, ?_, ?_⟩
  · intro n hn
    have h : (nextSequences (newManager sinks) n).1 = List.range' 1 n := by
      simpa [newManager] using
        nextSequences_range n (newManager sinks) (by simpa [newManager] using hn)
    refine ⟨h, ?_⟩
    intro k hk
    rw [h, List.get?_eq_getElem?, List.getElem?_range' _ _ hk]
    simp [Nat.add_comm]
  · intro calls hlen
    obtain ⟨hpair, hids⟩ :=
      creates_ids calls (newManager sinks) (by simpa [newManager] using hlen)
    refine ⟨hpair, ?_, ?_⟩
    · exact hpair.imp (fun h => Nat.ne_of_lt h)
    · intro id hid
      have := hids id hid
      simp only [newManager, Nat.zero_add] at this
      omega

/-- Witness of C12: of four calls of `create` on a fresh manager, the first and
the last succeed and return the ids 1 and 3; the call that fails in `Valid`
takes no id, the call whose container does not start takes the id 2. -/
theorem getNextSequence_mints_increasing_ids_witness :
    createdIds (creates (newManager []) [(exCreateEnv, exGoodCreateCmd),
      (exCreateEnv, exCreateCmd), (exStartFailsEnv, exGoodCreateCmd),
      (exCreateEnv, exGoodCreateCmd)]).1 = [1, 3] ∧
    (createdIds (creates (newManager []) [(exCreateEnv, exGoodCreateCmd),
      (exCreateEnv, exCreateCmd), (exStartFailsEnv, exGoodCreateCmd),
      (exCreateEnv, exGoodCreateCmd)]).1).Nodup :=
  ⟨by decide,
    ((getNextSequence_mints_increasing_ids []).2.2 [(exCreateEnv, exGoodCreateCmd),
      (exCreateEnv, exCreateCmd), (exStartFailsEnv, exGoodCreateCmd),
      (exCreateEnv, exGoodCreateCmd)] (by decide)).2.1⟩

end containers

/-! ## Properties of the loggers -/

namespace agent

/-- C13, on the code: `ACLogger.Log` takes its override from `loglevels_db`. A
message of level 1 whose command sets `loglevels_ac` to the single level 3 is
enqueued by a logger with the defaults 1 and 2, where the filter worded in the
specification drops it; and the same message with `loglevels_db` set to the
single level 3 is dropped, where the filter worded in the specification
enqueues it. -/
theorem ACLogger_Log_reads_loglevels_db :
    exACLogger.Log exMsgAcOverride = [exMsgAcOverride] ∧
    exACLogger.LogSpec exMsgAcOverride = [] ∧
    exACLogger.Log exMsgDbOverride = [] ∧
    exACLogger.LogSpec exMsgDbOverride = [exMsgDbOverride] := by
  decide

end agent

end Core0
